import Mathlib

/-!
Verification of the calendar synchronization core: shallow embedding of the
data model, provider sync loops, optimistic projection and mutation
coordination, with theorems checking the natural-language specification
against the code.
-/

/-- Zoned timestamp: an absolute instant on the timeline (epoch nanoseconds)
together with an explicit IANA time zone identifier. -/
structure ZonedDateTime where
  epochNanos : Int
  timeZone : String
deriving DecidableEq, Repr

/-- Conversion of a zoned timestamp to an instant in a reference zone.  A zoned
timestamp determines an absolute instant, so the conversion is independent of
the reference zone. -/
def toInstant (z : ZonedDateTime) (_refZone : String) : Int :=
  z.epochNanos

/-- Canonical provider-normalized calendar event. -/
structure CalendarEvent where
  id : String
  calendarId : String
  accountId : String
  providerId : String
  providerAccountId : String
  start : ZonedDateTime
  title : String
  recurringEventId : Option String
  readOnly : Bool
deriving DecidableEq, Repr

/-- Identity tuple carried by a deletion change record (no event content). -/
structure EventIdentity where
  id : String
  calendarId : String
  accountId : String
  providerId : String
  providerAccountId : String
deriving DecidableEq, Repr

/-- A change record produced by a provider sync: either an update carrying the
full normalized event, or a deletion carrying only identity. -/
inductive CalendarEventSyncItem where
  | updated (event : CalendarEvent)
  | deleted (event : EventIdentity)
deriving DecidableEq, Repr

/-- A calendar as exposed by a provider. -/
structure Calendar where
  id : String
  name : String
deriving DecidableEq, Repr

/-- The helper from the repository inserting an element into a list, scanning
past the elements satisfying the predicate (in every call site the predicate
tests whether an existing entry starts before the inserted one, so the
element lands at the sort-order-correct position). -/
def insertIntoSorted {α : Type} (l : List α) (x : α) (pred : α → Bool) : List α :=
  match l with
  | [] => [x]
  | y :: ys => if pred y then y :: insertIntoSorted ys x pred else x :: y :: ys

/-- Comparison helper of the repository: does the first instant come strictly
before the second. -/
def isBefore (a b : Int) : Bool :=
  decide (a < b)

theorem insertIntoSorted_mem {α : Type} (l : List α) (x a : α) (pred : α → Bool) :
    a ∈ insertIntoSorted l x pred ↔ a = x ∨ a ∈ l := by
  induction l with
  | nil => simp [insertIntoSorted]
  | cons y ys ih =>
    simp only [insertIntoSorted]
    by_cases h : pred y = true
    · rw [if_pos h]
      simp only [List.mem_cons, ih]
      tauto
    · rw [if_neg h]
      simp only [List.mem_cons]

theorem insertIntoSorted_perm {α : Type} (l : List α) (x : α) (pred : α → Bool) :
    List.Perm (insertIntoSorted l x pred) (x :: l) := by
  induction l with
  | nil => simp [insertIntoSorted]
  | cons y ys ih =>
    simp only [insertIntoSorted]
    by_cases h : pred y = true
    · simp only [h, if_true]
      exact (ih.cons y).trans (List.Perm.swap x y ys)
    · simp [h]

theorem filter_insertIntoSorted_neg {α : Type} (l : List α) (x : α) (pred q : α → Bool)
    (hx : q x = false) :
    (insertIntoSorted l x pred).filter q = l.filter q := by
  induction l with
  | nil => simp [insertIntoSorted, hx]
  | cons y ys ih =>
    simp only [insertIntoSorted]
    by_cases h : pred y = true
    · simp only [h, if_true]
      by_cases hq : q y = true
      · simp [List.filter, hq, ih]
      · simp only [List.filter]
        rw [Bool.not_eq_true] at hq
        simp [hq, ih]
    · simp [h, List.filter, hx]

theorem filter_insertIntoSorted_singleton {α : Type} (l : List α) (x : α) (pred q : α → Bool)
    (hx : q x = true) (hl : l.filter q = []) :
    (insertIntoSorted l x pred).filter q = [x] := by
  induction l with
  | nil => simp [insertIntoSorted, hx]
  | cons y ys ih =>
    have hy : q y = false := by
      by_contra hq
      rw [Bool.not_eq_false] at hq
      simp [List.filter, hq] at hl
    have hys : ys.filter q = [] := by
      simpa [List.filter, hy] using hl
    simp only [insertIntoSorted]
    by_cases h : pred y = true
    · simp [h, List.filter, hy, ih hys]
    · simp [h, List.filter, hx, hy, hys]

theorem insertIntoSorted_pairwise {α : Type} (key : α → Int) (x : α) (pred : α → Bool)
    (hpred : ∀ a, pred a = decide (key a < key x)) (l : List α)
    (h : l.Pairwise (fun a b => key a ≤ key b)) :
    (insertIntoSorted l x pred).Pairwise (fun a b => key a ≤ key b) := by
  induction l with
  | nil => simp [insertIntoSorted]
  | cons y ys ih =>
    rcases List.pairwise_cons.mp h with ⟨hy, hys⟩
    simp only [insertIntoSorted]
    by_cases hp : pred y = true
    · have hlt : key y < key x := by
        have := hpred y
        rw [hp] at this
        exact of_decide_eq_true this.symm
      simp only [hp, if_true]
      refine List.pairwise_cons.mpr ⟨?_, ih hys⟩
      intro b hb
      rcases (insertIntoSorted_mem ys x b pred).mp hb with hbx | hbin
      · exact hbx ▸ le_of_lt hlt
      · exact hy b hbin
    · have hge : key x ≤ key y := by
        have := hpred y
        rw [Bool.not_eq_true] at hp
        rw [hp] at this
        have := of_decide_eq_false this.symm
        omega
      simp only [hp, if_false]
      refine List.pairwise_cons.mpr ⟨?_, h⟩
      intro b hb
      rcases List.mem_cons.mp hb with hby | hbin
      · exact hby ▸ hge
      · exact le_trans hge (hy b hbin)

/-! ## Claim C7: idempotent delta application

Modelled from the spec: the layer that applies a `CalendarEventSyncItem` list
to a confirmed event collection is not among the available fragments; the spec
states that updates overwrite by id and that deletions on an absent id are
harmless.  The confirmed collection is modelled as a map from event id to
event. -/

/-- Modelled from the spec: apply one change record to a confirmed event
collection keyed by event id — an update overwrites the entry at the event's
id, a deletion removes the entry at the identity's id (harmless if absent). -/
def applySyncItem (m : String → Option CalendarEvent) (it : CalendarEventSyncItem) :
    String → Option CalendarEvent :=
  match it with
  | .updated e => fun k => if k = e.id then some e else m k
  | .deleted d => fun k => if k = d.id then none else m k

/-- Modelled from the spec: apply a change list to a confirmed event
collection, in list order. -/
def applySyncItems (m : String → Option CalendarEvent) (l : List CalendarEventSyncItem) :
    String → Option CalendarEvent :=
  l.foldl applySyncItem m

/-- The id written by a change record. -/
def syncItemId : CalendarEventSyncItem → String
  | .updated e => e.id
  | .deleted d => d.id

theorem applySyncItem_congr_at (m1 m2 : String → Option CalendarEvent)
    (it : CalendarEventSyncItem) (k : String) (h : m1 k = m2 k) :
    applySyncItem m1 it k = applySyncItem m2 it k := by
  cases it with
  | updated e =>
    simp only [applySyncItem]
    by_cases hk : k = e.id <;> simp [hk, h]
  | deleted d =>
    simp only [applySyncItem]
    by_cases hk : k = d.id <;> simp [hk, h]

theorem applySyncItems_congr_at (l : List CalendarEventSyncItem)
    (m1 m2 : String → Option CalendarEvent) (k : String) (h : m1 k = m2 k) :
    applySyncItems m1 l k = applySyncItems m2 l k := by
  induction l generalizing m1 m2 with
  | nil => simpa [applySyncItems]
  | cons x xs ih =>
    simp only [applySyncItems, List.foldl_cons]
    exact ih (applySyncItem m1 x) (applySyncItem m2 x) (applySyncItem_congr_at m1 m2 x k h)

theorem applySyncItem_writes (m1 m2 : String → Option CalendarEvent)
    (it : CalendarEventSyncItem) (k : String) (h : syncItemId it = k) :
    applySyncItem m1 it k = applySyncItem m2 it k := by
  cases it with
  | updated e => simp [applySyncItem, syncItemId] at h ⊢; simp [h.symm]
  | deleted d => simp [applySyncItem, syncItemId] at h ⊢; simp [h.symm]

theorem applySyncItem_not_writes (m : String → Option CalendarEvent)
    (it : CalendarEventSyncItem) (k : String) (h : ¬ syncItemId it = k) :
    applySyncItem m it k = m k := by
  cases it with
  | updated e =>
    simp only [syncItemId] at h
    simp only [applySyncItem]
    rw [if_neg (fun hk => h hk.symm)]
  | deleted d =>
    simp only [syncItemId] at h
    simp only [applySyncItem]
    rw [if_neg (fun hk => h hk.symm)]

theorem applySyncItems_append_singleton (m : String → Option CalendarEvent)
    (l : List CalendarEventSyncItem) (x : CalendarEventSyncItem) :
    applySyncItems m (l ++ [x]) = applySyncItem (applySyncItems m l) x := by
  simp [applySyncItems, List.foldl_append]

theorem applySyncItems_idem_at (l : List CalendarEventSyncItem)
    (m : String → Option CalendarEvent) (k : String) :
    applySyncItems (applySyncItems m l) l k = applySyncItems m l k := by
  induction l using List.reverseRecOn generalizing m with
  | nil => simp [applySyncItems]
  | append_singleton l x ih =>
    simp only [applySyncItems_append_singleton]
    by_cases hw : syncItemId x = k
    · exact applySyncItem_writes _ _ x k hw
    · calc applySyncItem (applySyncItems (applySyncItem (applySyncItems m l) x) l) x k
          = applySyncItems (applySyncItem (applySyncItems m l) x) l k :=
            applySyncItem_not_writes _ x k hw
        _ = applySyncItems (applySyncItems m l) l k :=
            applySyncItems_congr_at l _ _ k (applySyncItem_not_writes _ x k hw)
        _ = applySyncItems m l k := ih m
        _ = applySyncItem (applySyncItems m l) x k :=
            (applySyncItem_not_writes _ x k hw).symm

/-- Claim C7: applying the same CalendarEventSyncItem list twice to a confirmed
event collection yields the same collection as applying it once — updates
overwrite by id, and a deletion whose id is absent leaves the collection
unchanged. -/
theorem claim_C7_idempotent_delta_application (l : List CalendarEventSyncItem)
    (m : String → Option CalendarEvent) :
    applySyncItems (applySyncItems m l) l = applySyncItems m l := by
  funext k
  exact applySyncItems_idem_at l m k

/-! ## Optimistic actions and the optimistic projection -/

/-- Optimistic action, a tagged variant keyed by event id: create, update and
draft carry the full proposed event, delete carries only the event id. -/
inductive OptimisticAction where
  | create (eventId : String) (event : CalendarEvent)
  | update (eventId : String) (event : CalendarEvent)
  | draft (eventId : String) (event : CalendarEvent)
  | delete (eventId : String)
deriving DecidableEq, Repr

/-- Display item as rendered by the calendar view: the event together with its
start instant in the display time zone (conversion modelled from the spec,
the converter itself is not among the available fragments). -/
structure EventItem where
  event : CalendarEvent
  start : Int
deriving DecidableEq, Repr

/-- Modelled from the spec: convertEventToItem builds the display item of an
event for a display time zone; the item's position is its start instant. -/
def convertEventToItem (e : CalendarEvent) (timeZone : String) : EventItem :=
  { event := e, start := toInstant e.start timeZone }

/-- Lookup of the optimistic-action map (a record keyed by event id, modelled
as an association list in key-insertion order). -/
def findAction : List (String × OptimisticAction) → String → Option OptimisticAction
  | [], _ => none
  | (k, a) :: rest, key => if k = key then some a else findAction rest key

/-- Boolean test that an item displays the event with the given id. -/
def idIs (e : String) (it : EventItem) : Bool :=
  decide (it.event.id = e)

/-- One step of the action loop in applyOptimisticActions: update, create and
draft insert the action's event at the sort-order-correct position; delete
filters out any item whose event id equals the action's event id. -/
def applyAction (timeZone : String) (acc : List EventItem)
    (ka : String × OptimisticAction) : List EventItem :=
  match ka.2 with
  | .update _ e =>
      insertIntoSorted acc (convertEventToItem e timeZone)
        (fun a => isBefore a.start (toInstant e.start timeZone))
  | .delete eid => acc.filter (fun it => ! idIs eid it)
  | .create _ e =>
      insertIntoSorted acc (convertEventToItem e timeZone)
        (fun a => isBefore a.start (toInstant e.start timeZone))
  | .draft _ e =>
      insertIntoSorted acc (convertEventToItem e timeZone)
        (fun a => isBefore a.start (toInstant e.start timeZone))

/-- The optimistic projection applyOptimisticActions: first remove every
confirmed item whose event id has a pending optimistic action, then fold the
actions over the working list in map order. -/
def applyOptimisticActions (items : List EventItem) (timeZone : String)
    (optimisticActions : List (String × OptimisticAction)) : List EventItem :=
  optimisticActions.foldl (applyAction timeZone)
    (items.filter (fun it => (findAction optimisticActions it.event.id).isNone))

/-- Well-formedness of one entry of the by-event-id action map: the key equals
the action's event id, and for event-carrying actions the carried event has
that id. -/
def actionWellFormed : String × OptimisticAction → Bool
  | (k, .create eid e) => decide (eid = k) && decide (e.id = k)
  | (k, .update eid e) => decide (eid = k) && decide (e.id = k)
  | (k, .draft eid e) => decide (eid = k) && decide (e.id = k)
  | (k, .delete eid) => decide (eid = k)

/-- Items are sorted when consecutive start instants are nondecreasing. -/
def itemsSorted (l : List EventItem) : Prop :=
  l.Pairwise (fun a b => a.start ≤ b.start)

theorem filter_filter_of_imp {α : Type} (l : List α) (q d : α → Bool)
    (h : ∀ a, q a = true → d a = true) :
    (l.filter d).filter q = l.filter q := by
  induction l with
  | nil => rfl
  | cons a l ih =>
    by_cases hq : q a = true
    · have hd := h a hq
      simp [List.filter, hd, hq, ih]
    · rw [Bool.not_eq_true] at hq
      by_cases hd : d a = true
      · simp [List.filter, hd, hq, ih]
      · rw [Bool.not_eq_true] at hd
        simp [List.filter, hd, hq, ih]

theorem filter_filter_disjoint {α : Type} (l : List α) (q p : α → Bool)
    (h : ∀ a, q a = true → p a = false) :
    (l.filter p).filter q = [] := by
  induction l with
  | nil => rfl
  | cons a l ih =>
    by_cases hq : q a = true
    · have hp := h a hq
      simp [List.filter, hp, ih]
    · rw [Bool.not_eq_true] at hq
      by_cases hp : p a = true
      · simp [List.filter, hp, hq, ih]
      · rw [Bool.not_eq_true] at hp
        simp [List.filter, hp, ih]

theorem findAction_mem_not_none (l : List (String × OptimisticAction)) (k : String)
    (a : OptimisticAction) (h : (k, a) ∈ l) : (findAction l k).isNone = false := by
  induction l with
  | nil => cases h
  | cons ka rest ih =>
    rcases List.mem_cons.mp h with heq | hmem
    · rcases ka with ⟨k0, a0⟩
      cases heq
      simp [findAction]
    · rcases ka with ⟨k0, a0⟩
      simp only [findAction]
      by_cases hk : k0 = k
      · simp [hk]
      · simp only [hk, if_false]
        exact ih hmem

theorem applyActions_filter_invariant (tz : String) (e : String)
    (as : List (String × OptimisticAction)) (acc : List EventItem)
    (hk : ∀ ka ∈ as, ka.1 ≠ e) (hwf : ∀ ka ∈ as, actionWellFormed ka = true) :
    (as.foldl (applyAction tz) acc).filter (idIs e) = acc.filter (idIs e) := by
  induction as generalizing acc with
  | nil => rfl
  | cons ka rest ih =>
    have hk0 : ka.1 ≠ e := hk ka (List.mem_cons_self ka rest)
    have hwf0 : actionWellFormed ka = true := hwf ka (List.mem_cons_self ka rest)
    have hkrest : ∀ kb ∈ rest, kb.1 ≠ e := fun kb hb => hk kb (List.mem_cons_of_mem ka hb)
    have hwfrest : ∀ kb ∈ rest, actionWellFormed kb = true :=
      fun kb hb => hwf kb (List.mem_cons_of_mem ka hb)
    rw [List.foldl_cons, ih (applyAction tz acc ka) hkrest hwfrest]
    rcases ka with ⟨k, a⟩
    cases a with
    | update eid ev =>
      have hid : ev.id = k := by
        simp only [actionWellFormed, Bool.and_eq_true, decide_eq_true_eq] at hwf0
        exact hwf0.2
      apply filter_insertIntoSorted_neg
      simp only [idIs, convertEventToItem, decide_eq_false_iff_not]
      rw [hid]
      exact hk0
    | create eid ev =>
      have hid : ev.id = k := by
        simp only [actionWellFormed, Bool.and_eq_true, decide_eq_true_eq] at hwf0
        exact hwf0.2
      apply filter_insertIntoSorted_neg
      simp only [idIs, convertEventToItem, decide_eq_false_iff_not]
      rw [hid]
      exact hk0
    | draft eid ev =>
      have hid : ev.id = k := by
        simp only [actionWellFormed, Bool.and_eq_true, decide_eq_true_eq] at hwf0
        exact hwf0.2
      apply filter_insertIntoSorted_neg
      simp only [idIs, convertEventToItem, decide_eq_false_iff_not]
      rw [hid]
      exact hk0
    | delete eid =>
      have hid : eid = k := by
        simp only [actionWellFormed, decide_eq_true_eq] at hwf0
        exact hwf0
      apply filter_filter_of_imp
      intro it hq
      simp only [idIs, decide_eq_true_eq] at hq
      simp only [idIs, Bool.not_eq_true', decide_eq_false_iff_not]
      rw [hq, hid]
      intro hx
      exact hk0 hx.symm

theorem applyActions_pairwise (tz : String) (as : List (String × OptimisticAction))
    (acc : List EventItem) (h : itemsSorted acc) :
    itemsSorted (as.foldl (applyAction tz) acc) := by
  induction as generalizing acc with
  | nil => exact h
  | cons ka rest ih =>
    rw [List.foldl_cons]
    apply ih
    rcases ka with ⟨k, a⟩
    cases a with
    | update eid ev =>
      exact insertIntoSorted_pairwise EventItem.start (convertEventToItem ev tz) _
        (fun a => rfl) acc h
    | create eid ev =>
      exact insertIntoSorted_pairwise EventItem.start (convertEventToItem ev tz) _
        (fun a => rfl) acc h
    | draft eid ev =>
      exact insertIntoSorted_pairwise EventItem.start (convertEventToItem ev tz) _
        (fun a => rfl) acc h
    | delete eid => exact List.Pairwise.filter _ h

/-- Claim C2: for a confirmed item list and an optimistic-action map, a delete
action keyed by an id present in the confirmed list excludes that id from the
projection; an update action keyed by id e carrying event E2 makes the
projection contain exactly one item with id e, equal to the item of E2, and
the projection stays ordered by start instant, which places E2 by its start.
The action map is keyed by event id (distinct keys, entries well formed). -/
theorem claim_C2_optimistic_overlay (items : List EventItem) (tz : String)
    (actions : List (String × OptimisticAction)) (e : String)
    (hnodup : (actions.map Prod.fst).Nodup)
    (hwf : ∀ ka ∈ actions, actionWellFormed ka = true) :
    ((∃ it ∈ items, it.event.id = e) → (e, OptimisticAction.delete e) ∈ actions →
      ∀ it ∈ applyOptimisticActions items tz actions, it.event.id ≠ e)
    ∧ (∀ E2 : CalendarEvent, (e, OptimisticAction.update e E2) ∈ actions →
        (applyOptimisticActions items tz actions).filter (idIs e)
          = [convertEventToItem E2 tz]
        ∧ (itemsSorted items → itemsSorted (applyOptimisticActions items tz actions))) := by
  constructor
  · intro _hin hdel it hit
    obtain ⟨s, t, hst⟩ := List.mem_iff_append.mp hdel
    have hmapfst : actions.map Prod.fst = s.map Prod.fst ++ e :: t.map Prod.fst := by
      rw [hst]
      simp
    have hnd := hnodup
    rw [hmapfst] at hnd
    have hmid := (List.nodup_cons.mp (List.nodup_middle.mp hnd)).1
    have hkt : ∀ ka ∈ t, ka.1 ≠ e := by
      intro ka hka hkae
      exact hmid (List.mem_append.mpr (Or.inr (hkae ▸ List.mem_map_of_mem Prod.fst hka)))
    have hwft : ∀ ka ∈ t, actionWellFormed ka = true := by
      intro ka hka
      refine hwf ka ?_
      rw [hst]
      exact List.mem_append.mpr (Or.inr (List.mem_cons_of_mem _ hka))
    have hfilter : (applyOptimisticActions items tz actions).filter (idIs e) = [] := by
      rw [applyOptimisticActions, hst, List.foldl_append, List.foldl_cons]
      rw [applyActions_filter_invariant tz e t _ hkt hwft]
      show (List.filter (fun a => ! idIs e a) _).filter (idIs e) = []
      apply filter_filter_disjoint
      intro a ha
      rw [ha]
      rfl
    have hne := List.filter_eq_nil_iff.mp hfilter it hit
    simp only [idIs, decide_eq_true_eq] at hne
    exact hne
  · intro E2 hupd
    obtain ⟨s, t, hst⟩ := List.mem_iff_append.mp hupd
    have hmapfst : actions.map Prod.fst = s.map Prod.fst ++ e :: t.map Prod.fst := by
      rw [hst]
      simp
    have hnd := hnodup
    rw [hmapfst] at hnd
    have hmid := (List.nodup_cons.mp (List.nodup_middle.mp hnd)).1
    have hks : ∀ ka ∈ s, ka.1 ≠ e := by
      intro ka hka hkae
      exact hmid (List.mem_append.mpr (Or.inl (hkae ▸ List.mem_map_of_mem Prod.fst hka)))
    have hkt : ∀ ka ∈ t, ka.1 ≠ e := by
      intro ka hka hkae
      exact hmid (List.mem_append.mpr (Or.inr (hkae ▸ List.mem_map_of_mem Prod.fst hka)))
    have hwfs : ∀ ka ∈ s, actionWellFormed ka = true := by
      intro ka hka
      refine hwf ka ?_
      rw [hst]
      exact List.mem_append.mpr (Or.inl hka)
    have hwft : ∀ ka ∈ t, actionWellFormed ka = true := by
      intro ka hka
      refine hwf ka ?_
      rw [hst]
      exact List.mem_append.mpr (Or.inr (List.mem_cons_of_mem _ hka))
    have hE2id : E2.id = e := by
      have := hwf (e, OptimisticAction.update e E2) hupd
      simp only [actionWellFormed, Bool.and_eq_true, decide_eq_true_eq] at this
      exact this.2
    constructor
    · rw [applyOptimisticActions, hst, List.foldl_append, List.foldl_cons]
      rw [applyActions_filter_invariant tz e t _ hkt hwft]
      show (insertIntoSorted _ (convertEventToItem E2 tz) _).filter (idIs e)
        = [convertEventToItem E2 tz]
      apply filter_insertIntoSorted_singleton
      · simp only [idIs, convertEventToItem, decide_eq_true_eq]
        exact hE2id
      · rw [applyActions_filter_invariant tz e s _ hks hwfs]
        apply filter_filter_disjoint
        intro a ha
        simp only [idIs, decide_eq_true_eq] at ha
        rw [ha]
        apply findAction_mem_not_none _ e (OptimisticAction.update e E2)
        simp
    · intro hsorted
      rw [applyOptimisticActions]
      apply applyActions_pairwise
      exact List.Pairwise.filter _ hsorted

/-- Sample confirmed event present before the mutation. -/
def sampleEventA : CalendarEvent :=
  ⟨"evA", "cal1", "acct1", "google", "acct1", ⟨100, "UTC"⟩, "Alpha", none, false⟩

/-- Second sample confirmed event. -/
def sampleEventB : CalendarEvent :=
  ⟨"evB", "cal1", "acct1", "google", "acct1", ⟨200, "UTC"⟩, "Beta", none, false⟩

/-- Optimistically updated version of the second sample event. -/
def sampleEventB2 : CalendarEvent :=
  ⟨"evB", "cal1", "acct1", "google", "acct1", ⟨50, "UTC"⟩, "Beta moved", none, false⟩

/-- Sample confirmed item list. -/
def sampleItems : List EventItem :=
  [convertEventToItem sampleEventA "UTC", convertEventToItem sampleEventB "UTC"]

/-- Sample optimistic-action map: an update for evB and a delete for evA. -/
def sampleActions : List (String × OptimisticAction) :=
  [("evB", OptimisticAction.update "evB" sampleEventB2), ("evA", OptimisticAction.delete "evA")]

theorem claim_C2_optimistic_overlay_witness :
    (convertEventToItem sampleEventB2 "UTC").event.id ≠ "evA"
    ∧ (applyOptimisticActions sampleItems "UTC" sampleActions).filter (idIs "evB")
      = [convertEventToItem sampleEventB2 "UTC"]
    ∧ itemsSorted (applyOptimisticActions sampleItems "UTC" sampleActions) := by
  refine ⟨?_, ?_, ?_⟩
  · exact (claim_C2_optimistic_overlay sampleItems "UTC" sampleActions "evA"
      (by decide) (by decide)).1 (by decide) (by decide)
      (convertEventToItem sampleEventB2 "UTC") (by decide)
  · exact ((claim_C2_optimistic_overlay sampleItems "UTC" sampleActions "evB"
      (by decide) (by decide)).2 sampleEventB2 (by decide)).1
  · exact ((claim_C2_optimistic_overlay sampleItems "UTC" sampleActions "evB"
      (by decide) (by decide)).2 sampleEventB2 (by decide)).2 (by unfold itemsSorted; decide)

/-! ## Claim C3: events.list aggregation across calendars -/

/-- Sort key used by the events.list aggregation: the event's start instant
converted to UTC. -/
def eventSortKey (e : CalendarEvent) : Int :=
  toInstant e.start "UTC"

/-- Stable sort of the flattened event array by UTC start instant, modelling
the ECMAScript Array sort with the Temporal.Instant comparator (the
ECMAScript sort is stable, so events comparing equal keep arrival order). -/
def sortByStartUTC (l : List CalendarEvent) : List CalendarEvent :=
  l.foldr
    (fun x acc => insertIntoSorted acc x (fun a => isBefore (eventSortKey a) (eventSortKey x)))
    []

/-- The events.list aggregation: flatten the per-calendar event lists in
arrival order and sort the result by each event's UTC start instant. -/
def aggregateEvents (lists : List (List CalendarEvent)) : List CalendarEvent :=
  sortByStartUTC lists.flatten

theorem sortByStartUTC_pairwise (l : List CalendarEvent) :
    (sortByStartUTC l).Pairwise (fun a b => eventSortKey a ≤ eventSortKey b) := by
  induction l with
  | nil => simp [sortByStartUTC]
  | cons x xs ih =>
    show (insertIntoSorted (sortByStartUTC xs) x _).Pairwise _
    exact insertIntoSorted_pairwise eventSortKey x _ (fun a => rfl) (sortByStartUTC xs) ih

theorem sortByStartUTC_perm (l : List CalendarEvent) :
    List.Perm (sortByStartUTC l) l := by
  induction l with
  | nil => simp [sortByStartUTC]
  | cons x xs ih =>
    show List.Perm (insertIntoSorted (sortByStartUTC xs) x _) (x :: xs)
    exact (insertIntoSorted_perm (sortByStartUTC xs) x _).trans (ih.cons x)

/-- Claim C3 (amended): the aggregated list of events.list is ordered
ascending by each event's start instant converted to UTC and is a permutation
of the flattened input; the comparator compares start instants only, the sort
is stable, so events with equal start instants keep their arrival order — the
output is deterministic for a given arrival order but not independent of it. -/
theorem claim_C3_aggregation_sorted (lists : List (List CalendarEvent)) :
    (aggregateEvents lists).Pairwise (fun a b => eventSortKey a ≤ eventSortKey b)
    ∧ List.Perm (aggregateEvents lists) lists.flatten :=
  ⟨sortByStartUTC_pairwise lists.flatten, sortByStartUTC_perm lists.flatten⟩

/-- Event used in the tie counterexample (start instant 300). -/
def tieEventA : CalendarEvent :=
  ⟨"tieA", "cal1", "acct1", "google", "acct1", ⟨300, "UTC"⟩, "First", none, false⟩

/-- Second event of the tie counterexample: same start instant, different id. -/
def tieEventB : CalendarEvent :=
  ⟨"tieB", "cal2", "acct2", "microsoft", "acct2", ⟨300, "UTC"⟩, "Second", none, false⟩

/-- Claim C3 counterexample: two per-calendar lists holding events with equal
start instants produce different aggregated orders under the two arrival
orders, although the flattened inputs are permutations of each other — the
aggregation is not independent of arrival order and the comparator breaks no
ties. -/
theorem claim_C3_counterexample :
    aggregateEvents [[tieEventA], [tieEventB]] = [tieEventA, tieEventB]
    ∧ aggregateEvents [[tieEventB], [tieEventA]] = [tieEventB, tieEventA]
    ∧ aggregateEvents [[tieEventA], [tieEventB]] ≠ aggregateEvents [[tieEventB], [tieEventA]]
    ∧ List.Perm ([[tieEventA], [tieEventB]].flatten) ([[tieEventB], [tieEventA]].flatten) := by
  refine ⟨by decide, by decide, by decide, ?_⟩
  show List.Perm [tieEventA, tieEventB] [tieEventB, tieEventA]
  exact List.Perm.swap tieEventB tieEventA []

/-! ## Claims C4 and C6: mutation snapshot, rollback and the delete special
case -/

/-- Data cached under the events query key; the object spread in the
optimistic updaters carries every other field through unchanged, modelled
here by the recurring master list. -/
structure EventsQueryData where
  events : List CalendarEvent
  recurringMasterEvents : List CalendarEvent
deriving DecidableEq, Repr

/-- Destination carried by a move-flavoured update mutation. -/
structure MoveDestination where
  accountId : String
  calendarId : String
deriving DecidableEq, Repr

/-- onMutate of useCreateEventMutation: snapshot the cache, then insert the
new event into the sorted event list (an absent cache entry stays absent,
the updater bails out). Returns the updated cache and the snapshot. -/
def createOnMutate (tz : String) (cache : Option EventsQueryData) (newEvent : CalendarEvent) :
    Option EventsQueryData × Option EventsQueryData :=
  let newCache : Option EventsQueryData :=
    match cache with
    | none => none
    | some prev =>
        let events := insertIntoSorted prev.events newEvent
          (fun a => isBefore (toInstant a.start tz) (toInstant newEvent.start tz))
        some { prev with events := events }
  (newCache, cache)

/-- onMutate of useUpdateEventMutation: snapshot the cache, remove the old
event by id, apply the optional move destination to the updated event, and
insert it into the sorted event list. Returns the updated cache and the
snapshot. -/
def updateOnMutate (tz : String) (cache : Option EventsQueryData) (data : CalendarEvent)
    (move : Option MoveDestination) : Option EventsQueryData × Option EventsQueryData :=
  let newCache : Option EventsQueryData :=
    match cache with
    | none => none
    | some prev =>
        let withoutEvent := prev.events.filter (fun ev => ! decide (ev.id = data.id))
        let updatedEvent : CalendarEvent :=
          match move with
          | some d => { data with accountId := d.accountId, calendarId := d.calendarId }
          | none => data
        let events := insertIntoSorted withoutEvent updatedEvent
          (fun a => isBefore (toInstant a.start tz) (toInstant data.start tz))
        some { prev with events := events }
  (newCache, cache)

/-- onError rollback shared by the create and update mutations: restore the
snapshot when one was captured, otherwise leave the cache untouched. -/
def mutationRollback (current snapshot : Option EventsQueryData) : Option EventsQueryData :=
  match snapshot with
  | some s => some s
  | none => current

/-- Items the UI projects from a cached query result (none caches project an
empty list). -/
def cachedItems (cache : Option EventsQueryData) (tz : String) : List EventItem :=
  match cache with
  | none => []
  | some d => d.events.map (fun e => convertEventToItem e tz)

/-- Claim C4: for a failing create or update mutation, the onError rollback
restores the confirmed cache to the snapshot taken before the mutation began,
so the optimistic projection of the rolled-back cache equals the projection
of the cache immediately before the mutation began. -/
theorem claim_C4_rollback_restores (tz : String) (cache : Option EventsQueryData)
    (newEvent data : CalendarEvent) (move : Option MoveDestination)
    (tz2 : String) (acts : List (String × OptimisticAction)) :
    mutationRollback (createOnMutate tz cache newEvent).1 (createOnMutate tz cache newEvent).2
      = cache
    ∧ mutationRollback (updateOnMutate tz cache data move).1 (updateOnMutate tz cache data move).2
      = cache
    ∧ applyOptimisticActions
        (cachedItems
          (mutationRollback (createOnMutate tz cache newEvent).1
            (createOnMutate tz cache newEvent).2) tz2) tz2 acts
      = applyOptimisticActions (cachedItems cache tz2) tz2 acts
    ∧ applyOptimisticActions
        (cachedItems
          (mutationRollback (updateOnMutate tz cache data move).1
            (updateOnMutate tz cache data move).2) tz2) tz2 acts
      = applyOptimisticActions (cachedItems cache tz2) tz2 acts := by
  have h1 : mutationRollback (createOnMutate tz cache newEvent).1
      (createOnMutate tz cache newEvent).2 = cache := by
    cases cache <;> rfl
  have h2 : mutationRollback (updateOnMutate tz cache data move).1
      (updateOnMutate tz cache data move).2 = cache := by
    cases cache <;> rfl
  exact ⟨h1, h2, by rw [h1], by rw [h2]⟩

/-- onMutate of useDeleteEventMutation: snapshot the cache, then filter the
event out of the event list. Returns the updated cache and the snapshot. -/
def deleteOnMutate (cache : Option EventsQueryData) (eventId : String) :
    Option EventsQueryData × Option EventsQueryData :=
  (match cache with
    | none => none
    | some prev =>
        some { prev with events := prev.events.filter (fun ev => ! decide (ev.id = eventId)) },
   cache)

/-- onError of useDeleteEventMutation: when the failure reports the event
already deleted remotely, return early — the optimistic removal is kept and
no error surfaces; otherwise restore the snapshot and surface the error.  The
already-deleted test is modelled from the spec (the source shows the
condition as a comment placeholder); the Boolean result records whether an
error was surfaced to the user. -/
def deleteOnError (isAlreadyDeleted : Bool) (current snapshot : Option EventsQueryData) :
    Option EventsQueryData × Bool :=
  if isAlreadyDeleted then (current, false)
  else (mutationRollback current snapshot, true)

/-- Claim C6: a delete mutation failing because the remote event was already
gone is treated as success — the optimistic removal (no event with the
deleted id remains in the cache) is kept and no rollback or error surfacing
occurs; any other delete failure restores the snapshot and surfaces the
error. -/
theorem claim_C6_delete_already_gone (cache : Option EventsQueryData) (eventId : String) :
    deleteOnError true (deleteOnMutate cache eventId).1 (deleteOnMutate cache eventId).2
      = ((deleteOnMutate cache eventId).1, false)
    ∧ (∀ d, (deleteOnMutate cache eventId).1 = some d →
        ∀ ev ∈ d.events, ev.id ≠ eventId)
    ∧ deleteOnError false (deleteOnMutate cache eventId).1 (deleteOnMutate cache eventId).2
      = (cache, true) := by
  refine ⟨rfl, ?_, ?_⟩
  · intro d hd ev hev
    cases cache with
    | none => cases hd
    | some prev =>
      simp only [deleteOnMutate, Option.some.injEq] at hd
      rw [← hd] at hev
      simp only [List.mem_filter, Bool.not_eq_true', decide_eq_false_iff_not] at hev
      exact hev.2
  · cases cache <;> rfl

/-- Cache contents used by the delete-mutation witness. -/
def sampleCache : Option EventsQueryData :=
  some ⟨[sampleEventA, sampleEventB], []⟩

theorem claim_C6_delete_already_gone_witness :
    deleteOnError true (deleteOnMutate sampleCache "evA").1 (deleteOnMutate sampleCache "evA").2
      = ((deleteOnMutate sampleCache "evA").1, false)
    ∧ sampleEventB.id ≠ "evA"
    ∧ deleteOnError false (deleteOnMutate sampleCache "evA").1 (deleteOnMutate sampleCache "evA").2
      = (sampleCache, true) := by
  refine ⟨(claim_C6_delete_already_gone sampleCache "evA").1, ?_, 
    (claim_C6_delete_already_gone sampleCache "evA").2.2⟩
  exact (claim_C6_delete_already_gone sampleCache "evA").2.1 ⟨[sampleEventB], []⟩
    (by decide) sampleEventB (by decide)

/-! ## Provider error handling and sync loops -/

/-- A JavaScript error as inspected by the provider code: its message and its
name. -/
structure JsError where
  message : String
  name : String
deriving DecidableEq, Repr

/-- Character-list test: does the first list start with the second. -/
def charsStartWith : List Char → List Char → Bool
  | _, [] => true
  | [], _ :: _ => false
  | c :: cs, p :: ps => c = p && charsStartWith cs ps

/-- Character-list test: does the first list contain the second somewhere. -/
def charsContain (s pat : List Char) : Bool :=
  match s with
  | [] => charsStartWith [] pat
  | _ :: rest => charsStartWith s pat || charsContain rest pat

/-- Substring test modelling the includes method of JavaScript strings. -/
def strIncludes (s pat : String) : Bool :=
  charsContain s.data pat.data

/-- The network-error classification performed by withErrorHandler. -/
def isNetworkError (e : JsError) : Bool :=
  strIncludes e.message "fetch" || strIncludes e.message "network" ||
  strIncludes e.message "NetworkError" || strIncludes e.message "Failed to fetch" ||
  strIncludes e.message "timed out" || strIncludes e.message "timeout" ||
  decide (e.name = "NetworkError") || decide (e.name = "TypeError")

/-- Diagnostic context attached to an operation, a record of string fields. -/
abbrev ErrorContext := List (String × String)

/-- ProviderError as constructed by withErrorHandler: it receives the original
error, the operation name and the context, and nothing else. -/
structure ProviderError where
  cause : JsError
  operation : String
  context : Option ErrorContext
deriving DecidableEq, Repr

/-- Diagnostic log entry emitted by withErrorHandler before rethrowing: it is
the log, not the thrown error, that carries the provider tag and the account
id, together with the operation, the context and the network classification. -/
structure ErrorLogEntry where
  operation : String
  provider : String
  accountId : String
  context : Option ErrorContext
  network : Bool
deriving DecidableEq, Repr

/-- The uniform error handler of MicrosoftCalendarProvider: a successful body
passes through untouched with no log; a failing body is logged with full
diagnostics and rethrown wrapped exactly once in a ProviderError built from
the original error, the operation name and the context. -/
def withErrorHandler {α : Type} (accountId operation : String) (context : Option ErrorContext)
    (fn : Except JsError α) : Except ProviderError α × List ErrorLogEntry :=
  match fn with
  | .ok v => (.ok v, [])
  | .error e =>
      (.error ⟨e, operation, context⟩,
       [⟨operation, "microsoft", accountId, context, isNetworkError e⟩])

/-- Whether a result is a success. -/
def exceptIsOk {ε α : Type} : Except ε α → Bool
  | .ok _ => true
  | .error _ => false

/-- A raw event item of a Microsoft delta page: the possibly-missing id, the
tombstone marker, and the payload consumed by the event parser. -/
structure MicrosoftEventItem where
  id : Option String
  removed : Bool
  subject : String
  startEpochNanos : Int
  startTimeZone : String
deriving DecidableEq, Repr

/-- Modelled from the spec: parseMicrosoftEvent (outside the available
fragments) normalizes a raw Microsoft item into the canonical CalendarEvent
for the given calendar and account. -/
def parseMicrosoftEvent (item : MicrosoftEventItem) (accountId : String)
    (calendar : Calendar) : CalendarEvent :=
  { id := item.id.getD "", calendarId := calendar.id, accountId := accountId,
    providerId := "microsoft", providerAccountId := accountId,
    start := ⟨item.startEpochNanos, item.startTimeZone⟩, title := item.subject,
    recurringEventId := none, readOnly := false }

/-- JavaScript falsiness of the optional item id: absent or empty. -/
def msItemIdFalsy (item : MicrosoftEventItem) : Bool :=
  match item.id with
  | none => true
  | some s => decide (s = "")

/-- One iteration of the Microsoft sync item loop: an item with a falsy id is
skipped; a tombstone item yields a deletion record carrying only the identity
tuple; any other item yields an update record with the parsed event. -/
def msProcessItem (accountId : String) (calendar : Calendar)
    (changes : List CalendarEventSyncItem) (item : MicrosoftEventItem) :
    List CalendarEventSyncItem :=
  if msItemIdFalsy item then changes
  else if item.removed then
    changes ++ [CalendarEventSyncItem.deleted
      ⟨item.id.getD "", calendar.id, accountId, "microsoft", accountId⟩]
  else changes ++ [CalendarEventSyncItem.updated (parseMicrosoftEvent item accountId calendar)]

/-- One page of the Microsoft calendarView delta response. -/
structure MicrosoftPage where
  items : List MicrosoftEventItem
  nextLink : Option String
  deltaLink : Option String
deriving DecidableEq, Repr

/-- Change accumulation of the Microsoft sync page loop. -/
def msPagesChanges (accountId : String) (calendar : Calendar)
    (pages : List MicrosoftPage) : List CalendarEventSyncItem :=
  pages.foldl (fun changes p => p.items.foldl (msProcessItem accountId calendar) changes) []

/-- Token bookkeeping of the Microsoft sync loop: every iteration assigns the
page's deltaLink unconditionally, so the returned token is the final page's
deltaLink — a page without one clears any token seen earlier. -/
def msSyncTokenFold (pages : List MicrosoftPage) : Option String :=
  pages.foldl (fun _ p => p.deltaLink) none

/-- Result shape of a provider sync call.  The status is optional because the
Google success path returns the inner runSync result without adding one. -/
structure SyncResult where
  changes : List CalendarEventSyncItem
  syncToken : Option String
  status : Option String
deriving DecidableEq, Repr

/-- Body of MicrosoftCalendarProvider.sync over the fetched delta pages:
accumulate the change list across pages, keep the last assignment of the
page deltaLink as the sync token, and return status incremental.  There is no
token-expiry handling in this body: any fetch failure aborts it. -/
def microsoftSyncBody (accountId : String) (calendar : Calendar)
    (fetch : Except JsError (List MicrosoftPage)) : Except JsError SyncResult :=
  fetch.map (fun pages =>
    ⟨msPagesChanges accountId calendar pages, msSyncTokenFold pages, some "incremental"⟩)

/-- MicrosoftCalendarProvider.sync: the body wrapped by withErrorHandler (the
sync method passes no context), keeping only the thrown-or-returned value. -/
def microsoftSync (accountId : String) (calendar : Calendar)
    (fetch : Except JsError (List MicrosoftPage)) : Except ProviderError SyncResult :=
  (withErrorHandler accountId "sync" none (microsoftSyncBody accountId calendar fetch)).1

/-- A raw event item of a Google events page. -/
structure GoogleEventItem where
  id : String
  cancelled : Bool
  summary : String
  startEpochNanos : Int
  startTimeZone : String
  recurringEventId : Option String
deriving DecidableEq, Repr

/-- One page of the Google events list response. -/
structure GooglePage where
  items : List GoogleEventItem
  nextSyncToken : Option String
deriving DecidableEq, Repr

/-- Modelled from the spec: parseGoogleCalendarEvent (outside the available
fragments) normalizes a raw Google item into the canonical CalendarEvent. -/
def parseGoogleCalendarEvent (accountId : String) (calendar : Calendar)
    (item : GoogleEventItem) : CalendarEvent :=
  { id := item.id, calendarId := calendar.id, accountId := accountId,
    providerId := "google", providerAccountId := accountId,
    start := ⟨item.startEpochNanos, item.startTimeZone⟩, title := item.summary,
    recurringEventId := item.recurringEventId, readOnly := false }

/-- One iteration of the Google sync item loop: a cancelled item yields a
deletion record carrying only the identity tuple, any other item yields an
update record with the parsed event. -/
def googleItemChange (accountId : String) (calendar : Calendar)
    (item : GoogleEventItem) : CalendarEventSyncItem :=
  if item.cancelled then
    CalendarEventSyncItem.deleted ⟨item.id, calendar.id, accountId, "google", accountId⟩
  else CalendarEventSyncItem.updated (parseGoogleCalendarEvent accountId calendar item)

/-- Change accumulation of the Google sync page loop. -/
def googlePagesChanges (accountId : String) (calendar : Calendar)
    (pages : List GooglePage) : List CalendarEventSyncItem :=
  pages.foldl (fun changes p => changes ++ p.items.map (googleItemChange accountId calendar)) []

/-- Token bookkeeping of the Google sync loop: a page carrying a nextSyncToken
overwrites the current token, a page without one leaves it in place, and the
fold starts from the token the sync began with. -/
def googleSyncTokenFold (initial : Option String) (pages : List GooglePage) : Option String :=
  pages.foldl (fun cur p => match p.nextSyncToken with | some t => some t | none => cur) initial

/-- runSync of GoogleCalendarProvider.sync: walk the pages accumulating
changes, then append the recurring master events fetched for the recurring
instances discovered (the secondary fetch is supplied as an oracle).  Returns
the changes and the last seen token; it returns no status field. -/
def googleRunSync (accountId : String) (calendar : Calendar)
    (recurringFetch : List String → List CalendarEvent)
    (token : Option String) (pages : List GooglePage) :
    List CalendarEventSyncItem × Option String :=
  let changes := googlePagesChanges accountId calendar pages
  let instances := changes.filterMap (fun c =>
    match c with
    | .updated e => e.recurringEventId
    | .deleted _ => none)
  (changes ++ (recurringFetch instances).map CalendarEventSyncItem.updated,
   googleSyncTokenFold token pages)

/-- Whether an error reports the sync token invalid or expired; the source
keeps the test as a comment placeholder, so it is modelled from the spec as
recognizing the HTTP 410 Gone response. -/
def isSyncTokenExpired (e : JsError) : Bool :=
  strIncludes e.message "410"

/-- GoogleCalendarProvider.sync: run the incremental sync with the stored
token; if that fails with a token-expired error, run once more from scratch
with no token and mark the result status full; any other failure, and any
failure of the retry itself, propagates.  On the success path the runSync
result is returned as is, without a status field. -/
def googleSync (accountId : String) (calendar : Calendar)
    (recurringFetch : List String → List CalendarEvent)
    (fetch : Option String → Except JsError (List GooglePage))
    (initialSyncToken : Option String) : Except JsError SyncResult :=
  match fetch initialSyncToken with
  | .ok pages =>
      let r := googleRunSync accountId calendar recurringFetch initialSyncToken pages
      .ok ⟨r.1, r.2, none⟩
  | .error e =>
      if isSyncTokenExpired e then
        match fetch none with
        | .ok pages =>
            let r := googleRunSync accountId calendar recurringFetch none pages
            .ok ⟨r.1, r.2, some "full"⟩
        | .error e2 => .error e2
      else .error e

/-- Sample calendar shared by the sync examples. -/
def sampleCalendar : Calendar :=
  ⟨"cal1", "Calendar One"⟩

/-- Claim C1 (amended): on a token-expired failure of the Google sync, the
operation is retried exactly once from scratch with no token, the result
carries status full and the expiry never surfaces; a non-expired failure and
a failure of the retry itself propagate.  The Microsoft sync performs no
expiry handling: every fetch failure, a rejected token included, propagates
wrapped as a provider error. -/
theorem claim_C1_token_expiry_retry (accountId : String) (calendar : Calendar)
    (recurringFetch : List String → List CalendarEvent)
    (fetch : Option String → Except JsError (List GooglePage))
    (initialSyncToken : Option String) (e e2 : JsError) (pages : List GooglePage)
    (msFetch : Except JsError (List MicrosoftPage)) (msErr : JsError) :
    (fetch initialSyncToken = .error e → isSyncTokenExpired e = true →
      fetch none = .ok pages →
      googleSync accountId calendar recurringFetch fetch initialSyncToken
        = .ok ⟨(googleRunSync accountId calendar recurringFetch none pages).1,
               (googleRunSync accountId calendar recurringFetch none pages).2,
               some "full"⟩)
    ∧ (fetch initialSyncToken = .error e → isSyncTokenExpired e = true →
      fetch none = .error e2 →
      googleSync accountId calendar recurringFetch fetch initialSyncToken = .error e2)
    ∧ (fetch initialSyncToken = .error e → isSyncTokenExpired e = false →
      googleSync accountId calendar recurringFetch fetch initialSyncToken = .error e)
    ∧ (msFetch = .error msErr →
      microsoftSync accountId calendar msFetch = .error ⟨msErr, "sync", none⟩) := by
  refine ⟨?_, ?_, ?_, ?_⟩
  · intro h1 h2 h3
    simp [googleSync, h1, h2, h3]
  · intro h1 h2 h3
    simp [googleSync, h1, h2, h3]
  · intro h1 h2
    simp [googleSync, h1, h2]
  · intro h
    simp [microsoftSync, microsoftSyncBody, withErrorHandler, h, Except.map]

/-- Fetch oracle of the Google expiry witness: the stored token is rejected
with a 410 Gone, the fresh fetch succeeds with a single page. -/
def googleFetchWitness : Option String → Except JsError (List GooglePage) :=
  fun t =>
    match t with
    | some _ => Except.error ⟨"HTTP 410 Gone", "Error"⟩
    | none => Except.ok [⟨[], some "fresh-token"⟩]

/-- A provider error rejecting the stored sync token as expired. -/
def msExpiredError : JsError :=
  ⟨"HTTP 410 Gone: sync token invalid", "Error"⟩

theorem claim_C1_token_expiry_retry_witness :
    googleSync "acct1" sampleCalendar (fun _ => []) googleFetchWitness (some "stored-token")
      = Except.ok
          ⟨(googleRunSync "acct1" sampleCalendar (fun _ => []) none [⟨[], some "fresh-token"⟩]).1,
           (googleRunSync "acct1" sampleCalendar (fun _ => []) none [⟨[], some "fresh-token"⟩]).2,
           some "full"⟩
    ∧ microsoftSync "acct1" sampleCalendar (Except.error msExpiredError)
      = Except.error ⟨msExpiredError, "sync", none⟩ := by
  constructor
  · exact (claim_C1_token_expiry_retry "acct1" sampleCalendar (fun _ => []) googleFetchWitness
      (some "stored-token") ⟨"HTTP 410 Gone", "Error"⟩ ⟨"", ""⟩ [⟨[], some "fresh-token"⟩]
      (Except.ok []) ⟨"", ""⟩).1 rfl (by decide) rfl
  · exact (claim_C1_token_expiry_retry "acct1" sampleCalendar (fun _ => []) googleFetchWitness
      (some "stored-token") ⟨"HTTP 410 Gone", "Error"⟩ ⟨"", ""⟩ []
      (Except.error msExpiredError) msExpiredError).2.2.2 rfl

/-- Claim C1 counterexample: the Microsoft sync, handed a fetch failure that
is a token-expired rejection, surfaces a wrapped provider error instead of
retrying from scratch and returning status full — contradicting the claim for
the Microsoft provider. -/
theorem claim_C1_counterexample :
    isSyncTokenExpired msExpiredError = true
    ∧ microsoftSync "acct1" sampleCalendar (Except.error msExpiredError)
        = Except.error ⟨msExpiredError, "sync", none⟩
    ∧ exceptIsOk (microsoftSync "acct1" sampleCalendar (Except.error msExpiredError)) = false := by
  refine ⟨by decide, rfl, rfl⟩

/-- Claim C5 (amended): for a successful sync, Google returns the last token
seen across pages — a page emitting no token leaves the previous one in
place, starting from the stored token — but its success path carries no
status field; Microsoft returns the final page's deltaLink, so a page without
one clears any previously seen token, together with the accumulated change
list and status incremental. -/
theorem claim_C5_sync_token_bookkeeping (accountId : String) (calendar : Calendar)
    (recurringFetch : List String → List CalendarEvent)
    (fetch : Option String → Except JsError (List GooglePage))
    (initialSyncToken : Option String) (pages : List GooglePage) (p : GooglePage)
    (tok : String) (msPages : List MicrosoftPage) (mp : MicrosoftPage) :
    (p.nextSyncToken = none →
      googleSyncTokenFold initialSyncToken (pages ++ [p])
        = googleSyncTokenFold initialSyncToken pages)
    ∧ (p.nextSyncToken = some tok →
      googleSyncTokenFold initialSyncToken (pages ++ [p]) = some tok)
    ∧ (fetch initialSyncToken = .ok pages →
      googleSync accountId calendar recurringFetch fetch initialSyncToken
        = .ok ⟨(googleRunSync accountId calendar recurringFetch initialSyncToken pages).1,
               googleSyncTokenFold initialSyncToken pages, none⟩)
    ∧ msSyncTokenFold (msPages ++ [mp]) = mp.deltaLink
    ∧ microsoftSync accountId calendar (.ok msPages)
        = .ok ⟨msPagesChanges accountId calendar msPages, msSyncTokenFold msPages,
               some "incremental"⟩ := by
  refine ⟨?_, ?_, ?_, ?_, ?_⟩
  · intro h
    simp [googleSyncTokenFold, List.foldl_append, h]
  · intro h
    simp [googleSyncTokenFold, List.foldl_append, h]
  · intro h
    simp [googleSync, h, googleRunSync]
  · simp [msSyncTokenFold, List.foldl_append]
  · rfl

/-- Google page emitting a sync token. -/
def googlePageWithToken : GooglePage :=
  ⟨[], some "token-1"⟩

/-- Google page emitting no sync token. -/
def googlePageNoToken : GooglePage :=
  ⟨[], none⟩

/-- First Microsoft page of the token counterexample: it carries a deltaLink
and points at a next page. -/
def msPageOne : MicrosoftPage :=
  ⟨[], some "page-2", some "delta-1"⟩

/-- Final Microsoft page of the token counterexample: it carries neither a
next link nor a deltaLink. -/
def msPageTwo : MicrosoftPage :=
  ⟨[], none, none⟩

theorem claim_C5_sync_token_bookkeeping_witness :
    googleSyncTokenFold (some "stored-token") ([googlePageWithToken] ++ [googlePageNoToken])
      = googleSyncTokenFold (some "stored-token") [googlePageWithToken]
    ∧ googleSyncTokenFold (some "stored-token") ([] ++ [googlePageWithToken]) = some "token-1"
    ∧ googleSync "acct1" sampleCalendar (fun _ => [])
        (fun _ => Except.ok [googlePageWithToken]) none
      = Except.ok
          ⟨(googleRunSync "acct1" sampleCalendar (fun _ => []) none [googlePageWithToken]).1,
           googleSyncTokenFold none [googlePageWithToken], none⟩
    ∧ msSyncTokenFold ([msPageOne] ++ [msPageTwo]) = msPageTwo.deltaLink
    ∧ microsoftSync "acct1" sampleCalendar (Except.ok [msPageOne, msPageTwo])
      = Except.ok
          ⟨msPagesChanges "acct1" sampleCalendar [msPageOne, msPageTwo],
           msSyncTokenFold [msPageOne, msPageTwo], some "incremental"⟩ := by
  refine ⟨?_, ?_, ?_, ?_, ?_⟩
  · exact (claim_C5_sync_token_bookkeeping "acct1" sampleCalendar (fun _ => [])
      (fun _ => Except.ok []) (some "stored-token") [googlePageWithToken] googlePageNoToken
      "token-1" [] msPageTwo).1 rfl
  · exact (claim_C5_sync_token_bookkeeping "acct1" sampleCalendar (fun _ => [])
      (fun _ => Except.ok []) (some "stored-token") [] googlePageWithToken
      "token-1" [] msPageTwo).2.1 rfl
  · exact (claim_C5_sync_token_bookkeeping "acct1" sampleCalendar (fun _ => [])
      (fun _ => Except.ok [googlePageWithToken]) none [googlePageWithToken] googlePageNoToken
      "token-1" [] msPageTwo).2.2.1 rfl
  · exact (claim_C5_sync_token_bookkeeping "acct1" sampleCalendar (fun _ => [])
      (fun _ => Except.ok []) none [] googlePageNoToken
      "token-1" [msPageOne] msPageTwo).2.2.2.1
  · exact (claim_C5_sync_token_bookkeeping "acct1" sampleCalendar (fun _ => [])
      (fun _ => Except.ok []) none [] googlePageNoToken
      "token-1" [msPageOne, msPageTwo] msPageTwo).2.2.2.2

/-- Claim C5 counterexample: a Microsoft sync whose first page carries the
deltaLink while the final page carries none returns no token at all — the
final page, emitting no token, clears the previously seen one instead of
leaving it in place as the claim states. -/
theorem claim_C5_counterexample :
    msSyncTokenFold [msPageOne, msPageTwo] = none
    ∧ msPageOne.deltaLink = some "delta-1"
    ∧ microsoftSync "acct1" sampleCalendar (Except.ok [msPageOne, msPageTwo])
        = Except.ok ⟨[], none, some "incremental"⟩ := by
  refine ⟨rfl, rfl, rfl⟩

/-- Claim C10: in the Microsoft delta item loop, an item lacking an id
produces no change record at all, and every tombstone item that has an id
produces a deletion record carrying only the identity tuple — the item id,
the calendar id, the account id as both accountId and providerAccountId, and
provider id microsoft — with no event content. -/
theorem claim_C10_ms_delta_item_handling (accountId : String) (calendar : Calendar)
    (changes : List CalendarEventSyncItem) (item : MicrosoftEventItem) :
    (item.id = none → msProcessItem accountId calendar changes item = changes)
    ∧ (∀ s, item.id = some s → s ≠ "" → item.removed = true →
        msProcessItem accountId calendar changes item
          = changes ++ [CalendarEventSyncItem.deleted
              ⟨s, calendar.id, accountId, "microsoft", accountId⟩]) := by
  constructor
  · intro h
    simp [msProcessItem, msItemIdFalsy, h]
  · intro s hs hne hrem
    have hfalsy : msItemIdFalsy item = false := by
      simp [msItemIdFalsy, hs, hne]
    simp [msProcessItem, hfalsy, hrem, hs]

/-- Delta item with no id at all. -/
def msItemNoId : MicrosoftEventItem :=
  ⟨none, true, "ghost", 0, "UTC"⟩

/-- Tombstone delta item with an id. -/
def msItemRemoved : MicrosoftEventItem :=
  ⟨some "ev9", true, "gone", 0, "UTC"⟩

theorem claim_C10_ms_delta_item_handling_witness :
    msProcessItem "acct1" sampleCalendar [] msItemNoId = []
    ∧ msProcessItem "acct1" sampleCalendar [] msItemRemoved
      = [CalendarEventSyncItem.deleted ⟨"ev9", "cal1", "acct1", "microsoft", "acct1"⟩] := by
  constructor
  · exact (claim_C10_ms_delta_item_handling "acct1" sampleCalendar [] msItemNoId).1 rfl
  · exact (claim_C10_ms_delta_item_handling "acct1" sampleCalendar [] msItemRemoved).2
      "ev9" rfl (by decide) rfl

/-- Claim C8 (amended): the uniform error handler never swallows a failure
and never fabricates one — the wrapped outcome is a success exactly when the
body is; a failing body is rethrown wrapped exactly once in a ProviderError
carrying the original error, the operation name and the context, while the
provider tag and the account id travel in the diagnostic log entry rather
than on the thrown error; a successful body passes through unchanged. -/
theorem claim_C8_error_wrapping {α : Type} (accountId operation : String)
    (context : Option ErrorContext) (fn : Except JsError α) :
    exceptIsOk (withErrorHandler accountId operation context fn).1 = exceptIsOk fn
    ∧ (∀ e, fn = .error e →
        (withErrorHandler accountId operation context fn).1
          = .error ⟨e, operation, context⟩
        ∧ (withErrorHandler accountId operation context fn).2
          = [⟨operation, "microsoft", accountId, context, isNetworkError e⟩])
    ∧ (∀ v, fn = .ok v → (withErrorHandler accountId operation context fn).1 = .ok v) := by
  refine ⟨?_, ?_, ?_⟩
  · cases fn <;> rfl
  · intro e he
    rw [he]
    exact ⟨rfl, rfl⟩
  · intro v hv
    rw [hv]
    rfl

/-- A failing provider call used by the error-wrapping witness. -/
def wehFailure : JsError :=
  ⟨"Request timed out", "Error"⟩

theorem claim_C8_error_wrapping_witness :
    (@withErrorHandler Nat "acct1" "createEvent" none (Except.error wehFailure)).1
      = Except.error ⟨wehFailure, "createEvent", none⟩
    ∧ (@withErrorHandler Nat "acct1" "createEvent" none (Except.error wehFailure)).2
      = [⟨"createEvent", "microsoft", "acct1", none, isNetworkError wehFailure⟩]
    ∧ (@withErrorHandler Nat "acct1" "calendars" none (Except.ok 7)).1 = Except.ok 7 := by
  refine ⟨?_, ?_, ?_⟩
  · exact ((claim_C8_error_wrapping "acct1" "createEvent" none
      (Except.error wehFailure)).2.1 wehFailure rfl).1
  · exact ((claim_C8_error_wrapping "acct1" "createEvent" none
      (Except.error wehFailure)).2.1 wehFailure rfl).2
  · exact (claim_C8_error_wrapping "acct1" "calendars" none (Except.ok 7)).2.2 7 rfl

/-- A generic provider failure. -/
def wehSampleError : JsError :=
  ⟨"Request failed with status 500", "Error"⟩

/-- Claim C8 counterexample: two providers differing only in their account id
rethrow byte-for-byte identical wrapped errors, so the thrown provider error
cannot carry the account id (or the provider id) — only the diagnostic log
does; the claim that the rethrown error carries account and provider ids is
false. -/
theorem claim_C8_counterexample :
    (@withErrorHandler Nat "account-1" "sync" none (Except.error wehSampleError)).1
      = (@withErrorHandler Nat "account-2" "sync" none (Except.error wehSampleError)).1
    ∧ "account-1" ≠ "account-2" := by
  refine ⟨rfl, by decide⟩

/-! ## Claim C9: moveEvent issues no mutating request -/

/-- HTTP method of a Microsoft Graph request. -/
inductive HttpMethod where
  | get
  | post
  | patch
  | delete
deriving DecidableEq, Repr

/-- A Microsoft Graph request issued by the provider. -/
structure GraphRequest where
  method : HttpMethod
  path : String
deriving DecidableEq, Repr

/-- Request trace of MicrosoftCalendarProvider.event: a single GET to the
event path under the given calendar (the calendarPath helper lives outside
the available fragments and is supplied abstractly). -/
def msEventRequests (calendarPathOf : String → String) (calendar : Calendar)
    (eventId : String) : List GraphRequest :=
  [⟨HttpMethod.get, calendarPathOf calendar.id ++ "/events/" ++ eventId⟩]

/-- Request trace of MicrosoftCalendarProvider.moveEvent: only the single GET
issued by fetching the event from the source calendar; no other request is
made. -/
def msMoveEventRequests (calendarPathOf : String → String) (sourceCalendar : Calendar)
    (eventId : String) : List GraphRequest :=
  msEventRequests calendarPathOf sourceCalendar eventId

/-- Result of MicrosoftCalendarProvider.moveEvent: the event fetched from the
source calendar with its calendarId replaced by the destination calendar's
id (readOnly is copied through from the fetched event unchanged). -/
def msMoveEvent (fetched : CalendarEvent) (destinationCalendar : Calendar) : CalendarEvent :=
  { fetched with calendarId := destinationCalendar.id, readOnly := fetched.readOnly }

/-- Whether a request mutates provider-side state. -/
def isMutatingRequest (r : GraphRequest) : Bool :=
  match r.method with
  | HttpMethod.get => false
  | _ => true

/-- Claim C9: moveEvent returns the event fetched from the source calendar
with only its calendarId replaced by the destination calendar's id — every
other field unchanged — and its request trace contains no create, update or
delete request, so provider-side state is unmodified. -/
theorem claim_C9_move_event (fetched : CalendarEvent) (destinationCalendar : Calendar)
    (calendarPathOf : String → String) (sourceCalendar : Calendar) (eventId : String) :
    (msMoveEvent fetched destinationCalendar).calendarId = destinationCalendar.id
    ∧ (msMoveEvent fetched destinationCalendar).id = fetched.id
    ∧ (msMoveEvent fetched destinationCalendar).accountId = fetched.accountId
    ∧ (msMoveEvent fetched destinationCalendar).providerId = fetched.providerId
    ∧ (msMoveEvent fetched destinationCalendar).providerAccountId = fetched.providerAccountId
    ∧ (msMoveEvent fetched destinationCalendar).start = fetched.start
    ∧ (msMoveEvent fetched destinationCalendar).title = fetched.title
    ∧ (msMoveEvent fetched destinationCalendar).recurringEventId = fetched.recurringEventId
    ∧ (msMoveEvent fetched destinationCalendar).readOnly = fetched.readOnly
    ∧ (msMoveEventRequests calendarPathOf sourceCalendar eventId).filter isMutatingRequest
      = [] :=
  ⟨rfl, rfl, rfl, rfl, rfl, rfl, rfl, rfl, rfl, rfl⟩
